import Mathlib

/-!
Shallow embedding of the Millikit e-commerce application's cart, pricing,
product-search, storage and admin-authentication logic, together with
theorems checking the natural-language specification against it.

Conventions used throughout:
* TypeScript strings are Lean `String`s; JavaScript truthiness of a string
  is "nonempty" (`truthyStr`), and `undefined`/`null` is `Option.none`.
* `JSON.parse` is an external library call, so it is modelled as an
  abstract parameter `parse : String → Option β` (`none` models a thrown
  exception); theorems are quantified over it and witnesses instantiate it
  with concrete functions.
* Decimal amounts that the client parses with `parseFloat` are modelled as
  rationals (`ℚ`).
-/

namespace Millikit

/-- JavaScript string truthiness: a string is truthy iff it is nonempty. -/
def truthyStr (s : String) : Bool := s ≠ ""

/-- JavaScript truthiness of an optional string: `undefined`/`null` and the
empty string are falsy. -/
def truthyOptStr : Option String → Bool
  | none => false
  | some s => truthyStr s

/-- JavaScript `a || b` on optional strings, with string truthiness. -/
def jsOrStr (a b : Option String) : Option String :=
  if truthyOptStr a then a else b

/-- JavaScript `String.prototype.includes`: substring containment,
modelled as list infix on the characters. -/
def strIncludes (hay needle : String) : Bool :=
  decide (needle.toList <:+: hay.toList)

/-- Model of JavaScript `String.prototype.toLowerCase`: lowercase each
character. -/
def jsToLower (s : String) : String := ⟨s.data.map Char.toLower⟩

/-! ## Cart summary (`client/src/lib/cart.ts`, `calculateCartSummary`) -/

/-- One argument element of `calculateCartSummary`: a cart item together
with its optionally attached product.  The only fields the function reads
are `item.quantity` and `item.product?.price`; the price string parsed by
`parseFloat` is modelled as a rational, and a missing product as `none`
(the code then falls back to `parseFloat("0")`). -/
structure SummaryLine where
  quantity : ℕ
  productPrice : Option ℚ
deriving Repr, DecidableEq

/-- The unit price `calculateCartSummary` uses for a line:
`parseFloat(item.product?.price || "0")`. -/
def linePrice (l : SummaryLine) : ℚ := l.productPrice.getD 0

/-- Result record of `calculateCartSummary`. -/
structure CartSummary where
  subtotal : ℚ
  shipping : ℚ
  tax : ℚ
  total : ℚ
deriving Repr, DecidableEq

/-- `calculateCartSummary` from `client/src/lib/cart.ts` (lines 6–28):
subtotal is a `reduce` over the items, shipping is free above 1000 and a
flat 100 otherwise, tax is 5 %, total is the sum of the three. -/
def calculateCartSummary (cartItems : List SummaryLine) : CartSummary :=
  let subtotal := cartItems.foldl (fun total item => total + linePrice item * item.quantity) 0
  let shipping : ℚ := if subtotal > 1000 then 0 else 100
  let tax := subtotal * (5 / 100)
  let total := subtotal + shipping + tax
  { subtotal := subtotal, shipping := shipping, tax := tax, total := total }

/-- The shipping step function of the subtotal, as the spec describes it. -/
def shippingOf (subtotal : ℚ) : ℚ := if subtotal > 1000 then 0 else 100

/-- Doubling every line's quantity, as claim C5 describes. -/
def doubleQuantities (cartItems : List SummaryLine) : List SummaryLine :=
  cartItems.map (fun l => { l with quantity := 2 * l.quantity })

theorem foldl_add_eq_sum (f : SummaryLine → ℚ) (l : List SummaryLine) (a : ℚ) :
    l.foldl (fun t it => t + f it) a = a + (l.map f).sum := by
  induction l generalizing a with
  | nil => simp
  | cons x xs ih => simp [List.foldl_cons, ih, add_assoc]

theorem subtotal_eq_sum (cartItems : List SummaryLine) :
    (calculateCartSummary cartItems).subtotal
      = (cartItems.map (fun l => linePrice l * l.quantity)).sum := by
  simp [calculateCartSummary, foldl_add_eq_sum]

/-- Claim C4: for every list of cart lines with attached products,
`calculateCartSummary` returns subtotal `Σ (unit price × quantity)`,
shipping `0` when the subtotal is strictly greater than 1000 and `100`
otherwise, tax `subtotal × 0.05`, and total `subtotal + shipping + tax`. -/
theorem claim_C4_cart_summary (cartItems : List SummaryLine) :
    (calculateCartSummary cartItems).subtotal
        = (cartItems.map (fun l => linePrice l * l.quantity)).sum
    ∧ (calculateCartSummary cartItems).shipping
        = (if (calculateCartSummary cartItems).subtotal > 1000 then 0 else 100)
    ∧ (calculateCartSummary cartItems).tax
        = (calculateCartSummary cartItems).subtotal * (5 / 100)
    ∧ (calculateCartSummary cartItems).total
        = (calculateCartSummary cartItems).subtotal
          + (calculateCartSummary cartItems).shipping
          + (calculateCartSummary cartItems).tax := by
  exact ⟨subtotal_eq_sum cartItems, rfl, rfl, rfl⟩

/-- Claim C5: doubling every line's quantity exactly doubles the subtotal
and the tax of `calculateCartSummary`, and the shipping component is a
function only of the subtotal's position relative to the free-shipping
threshold: a subtotal of 999 yields the flat fee 100 and a subtotal of 1001
yields 0. -/
theorem claim_C5_cart_summary_linear (cartItems : List SummaryLine) :
    (calculateCartSummary (doubleQuantities cartItems)).subtotal
        = 2 * (calculateCartSummary cartItems).subtotal
    ∧ (calculateCartSummary (doubleQuantities cartItems)).tax
        = 2 * (calculateCartSummary cartItems).tax
    ∧ (calculateCartSummary cartItems).shipping
        = shippingOf (calculateCartSummary cartItems).subtotal
    ∧ shippingOf 999 = 100
    ∧ shippingOf 1001 = 0 := by
  have hfun : ((fun l => linePrice l * (l.quantity : ℚ))
        ∘ (fun l : SummaryLine => { l with quantity := 2 * l.quantity }))
      = fun l : SummaryLine => 2 * (linePrice l * l.quantity) := by
    funext l
    simp [linePrice, Function.comp]
    ring
  have hsub : (calculateCartSummary (doubleQuantities cartItems)).subtotal
      = 2 * (calculateCartSummary cartItems).subtotal := by
    rw [subtotal_eq_sum, subtotal_eq_sum, doubleQuantities, List.map_map, hfun,
      List.sum_map_mul_left]
  have htax : ∀ L : List SummaryLine,
      (calculateCartSummary L).tax = (calculateCartSummary L).subtotal * (5 / 100) :=
    fun _ => rfl
  refine ⟨hsub, ?_, rfl, by norm_num [shippingOf], by norm_num [shippingOf]⟩
  rw [htax, htax, hsub]
  ring

/-! ## Effective unit price resolution (C3)

`CartProvider.addToCart` (CartContext.tsx lines 156–169) and the weight
option `onChange` of `ProductDetail` (ProductDetail.tsx lines 480–489,
with the table built at lines 165–189) both resolve a unit price from the
product's serialized `weightPrices` JSON object. -/

/-- JavaScript property lookup `obj[k]` on a parsed JSON object, modelled
as association-list lookup (first binding wins). -/
def jsLookup {α : Type} (tbl : List (String × α)) (k : String) : Option α :=
  (tbl.find? (fun e => e.1 == k)).map Prod.snd

/-- An entry of the parsed `weightPrices` object as `CartContext.addToCart`
reads it: `weightPrices[w].price`, `none` when the `price` field is absent. -/
structure WPEntry where
  price : Option String
deriving Repr, DecidableEq

/-- Price resolution of `CartProvider.addToCart`: starts from
`product.price`, and when a weight is selected and the product has a
(truthy) `weightPrices` string that parses, uses
`weightPrices[selectedWeight].price` when that is truthy.  `parse` models
`JSON.parse` (`none` = exception thrown). -/
def resolveCartItemPrice (parse : String → Option (List (String × WPEntry)))
    (price : String) (weightPrices : Option String) (selectedWeight : Option String) :
    String :=
  match selectedWeight, weightPrices with
  | some w, some wps =>
    if truthyStr w && truthyStr wps then
      match parse wps with
      | some tbl =>
        match jsLookup tbl w with
        | some entry =>
          match entry.price with
          | some pr => if truthyStr pr then pr else price
          | none => price
        | none => price
      | none => price
    else price
  | _, _ => price

/-- The `weightPrices` record state of `ProductDetail` (lines 165–189): the
parsed table when `product.weightPrices` is truthy and parses, `{}`
otherwise. -/
def detailWeightTable (parse : String → Option (List (String × String)))
    (weightPrices : Option String) : List (String × String) :=
  match weightPrices with
  | some s => if truthyStr s then (parse s).getD [] else []
  | none => []

/-- Price shown by `ProductDetail`'s weight-option `onChange` (lines
480–489): `weightPrices[weight]` when truthy, the base price otherwise. -/
def resolveDetailPrice (parse : String → Option (List (String × String)))
    (price : String) (weightPrices : Option String) (w : String) : String :=
  match jsLookup (detailWeightTable parse weightPrices) w with
  | some v => if truthyStr v then v else price
  | none => price

/-- The price actually mapped by a `weightPrices` entry in the cart
context's table shape: the entry's `price` field when it carries a
nonempty price string. -/
def entryPriceOf (e : WPEntry) : Option String :=
  match e.price with
  | some pr => if truthyStr pr then some pr else none
  | none => none

/-- Spec-side weight→price lookup for the cart context, following the
claim's words: the value mapped to the (nonempty) label in the product's
parsed weight-to-price table, when that table exists (truthy `weightPrices`
string that parses) and contains the label with an actual price; `none` in
every other case. -/
def specWeightPriceCart (parse : String → Option (List (String × WPEntry)))
    (weightPrices : Option String) (w : String) : Option String :=
  if truthyStr w then
    match weightPrices with
    | some s =>
      if truthyStr s then
        match parse s with
        | some tbl => (jsLookup tbl w).bind entryPriceOf
        | none => none
      else none
    | none => none
  else none

/-- Spec-side weight→price lookup for the product-detail page, whose parsed
table maps labels directly to price strings. -/
def specWeightPriceDetail (parse : String → Option (List (String × String)))
    (weightPrices : Option String) (w : String) : Option String :=
  match weightPrices with
  | some s =>
    if truthyStr s then
      match parse s with
      | some tbl => (jsLookup tbl w).bind (fun v => if truthyStr v then some v else none)
      | none => none
    else none
  | none => none

/-- Claim C3: for every product and optional selected weight label, the
resolved effective unit price equals the value mapped to that label in the
product's parsed weight-to-price table when that table exists and contains
the label, and equals the product's base price in every other case (label
absent from the table, no table defined, or table string failing to
parse) — for both the cart context's resolution and the product-detail
page's resolution. -/
theorem claim_C3_effective_price
    (parseC : String → Option (List (String × WPEntry)))
    (parseD : String → Option (List (String × String)))
    (price : String) (weightPrices : Option String) (ow : Option String) (w : String) :
    resolveCartItemPrice parseC price weightPrices ow
        = (match ow with
           | some lbl => (specWeightPriceCart parseC weightPrices lbl).getD price
           | none => price)
    ∧ resolveDetailPrice parseD price weightPrices w
        = (specWeightPriceDetail parseD weightPrices w).getD price := by
  constructor
  · cases ow with
    | none => cases weightPrices <;> rfl
    | some lbl =>
      cases weightPrices with
      | none =>
        cases htl : truthyStr lbl <;>
          simp [resolveCartItemPrice, specWeightPriceCart, htl]
      | some s =>
        cases htl : truthyStr lbl <;> cases hts : truthyStr s
        · simp [resolveCartItemPrice, specWeightPriceCart, htl, hts]
        · simp [resolveCartItemPrice, specWeightPriceCart, htl, hts]
        · simp [resolveCartItemPrice, specWeightPriceCart, htl, hts]
        · cases hp : parseC s with
          | none => simp [resolveCartItemPrice, specWeightPriceCart, htl, hts, hp]
          | some tbl =>
            cases hl : jsLookup tbl lbl with
            | none =>
              simp [resolveCartItemPrice, specWeightPriceCart, htl, hts, hp, hl]
            | some entry =>
              cases hpr : entry.price with
              | none =>
                simp [resolveCartItemPrice, specWeightPriceCart, entryPriceOf,
                  htl, hts, hp, hl, hpr]
              | some pr =>
                cases htp : truthyStr pr <;>
                  simp [resolveCartItemPrice, specWeightPriceCart, entryPriceOf,
                    htl, hts, hp, hl, hpr, htp]
  · cases weightPrices with
    | none => simp [resolveDetailPrice, specWeightPriceDetail, detailWeightTable, jsLookup]
    | some s =>
      cases hts : truthyStr s
      · simp [resolveDetailPrice, specWeightPriceDetail, detailWeightTable, hts, jsLookup]
      · cases hp : parseD s with
        | none =>
          simp [resolveDetailPrice, specWeightPriceDetail, detailWeightTable, hts, hp,
            jsLookup]
        | some tbl =>
          cases hl : jsLookup tbl w with
          | none =>
            simp [resolveDetailPrice, specWeightPriceDetail, detailWeightTable, hts, hp, hl]
          | some v =>
            cases htv : truthyStr v <;>
              simp [resolveDetailPrice, specWeightPriceDetail, detailWeightTable,
                hts, hp, hl, htv]

/-! ## Product search (C7): `MemStorage.searchProducts` / `getProducts` -/

/-- The product fields `MemStorage.searchProducts` consults. -/
structure Product where
  id : ℕ
  name : String
  description : String
  category : String
deriving Repr, DecidableEq

/-- `MemStorage.getProducts`: all products of the store. -/
def getProducts (store : List Product) : List Product := store

/-- `MemStorage.searchProducts` (storage.ts lines 180–188): lowercase the
query and keep the products whose lowercased name, description or category
contains it. -/
def searchProducts (store : List Product) (query : String) : List Product :=
  let lowercaseQuery := jsToLower query
  store.filter (fun product =>
    strIncludes (jsToLower product.name) lowercaseQuery ||
    strIncludes (jsToLower product.description) lowercaseQuery ||
    strIncludes (jsToLower product.category) lowercaseQuery)

/-- `q` occurs in `hay` as a case-insensitive substring. -/
def containsCI (hay q : String) : Prop :=
  (jsToLower q).toList <:+: (jsToLower hay).toList

theorem strIncludes_empty (h : String) : strIncludes h "" = true := by
  have h0 : ("" : String).toList = [] := rfl
  simp [strIncludes, h0]

theorem strIncludes_iff (hay q : String) :
    strIncludes (jsToLower hay) (jsToLower q) = true ↔ containsCI hay q := by
  simp [strIncludes, containsCI]

/-- Claim C7: `searchProducts` with the empty query returns exactly
`getProducts`, and for every query a product is in the search result iff
it is a store product whose name, description or category contains the
query as a case-insensitive substring. -/
theorem claim_C7_searchProducts (store : List Product) (q : String) (p : Product) :
    searchProducts store "" = getProducts store
    ∧ (p ∈ searchProducts store q
        ↔ p ∈ getProducts store
          ∧ (containsCI p.name q ∨ containsCI p.description q ∨ containsCI p.category q)) := by
  constructor
  · have hlow : jsToLower "" = "" := by decide
    apply List.filter_eq_self.mpr
    intro a _
    simp [hlow, strIncludes_empty]
  · rw [searchProducts, getProducts]
    simp only [List.mem_filter, Bool.or_eq_true, strIncludes_iff]
    tauto

/-! ## Cart rows and session-wide clear (C8) -/

/-- A cart row, with the fields the storage layer reads (the `metaData`
column appears in the production storage's queries). -/
structure CartItemRec where
  id : ℕ
  userId : Option ℕ
  sessionId : Option String
  productId : ℕ
  quantity : ℕ
  metaData : Option String
deriving Repr, DecidableEq

/-- `MemStorage.clearCart` (storage.ts lines 290–294): delete exactly the
entries whose `sessionId` equals the given one (the production
implementation issues the equivalent single `DELETE ... WHERE session_id =`
statement). -/
def clearCart (items : List CartItemRec) (sessionId : String) : List CartItemRec :=
  items.filter (fun item => !(item.sessionId == some sessionId))

/-- Claim C8: `clearCart sessionId` removes exactly the cart items of that
session — afterwards no item of the session remains, every remaining item
was present before (unchanged), and every item of any other session is
still present. -/
theorem claim_C8_clearCart (items : List CartItemRec) (sid : String) :
    (∀ it ∈ clearCart items sid, it.sessionId ≠ some sid)
    ∧ (∀ it ∈ clearCart items sid, it ∈ items)
    ∧ (∀ it ∈ items, it.sessionId ≠ some sid → it ∈ clearCart items sid) := by
  refine ⟨?_, ?_, ?_⟩ <;> intro it hit <;>
    simp only [clearCart, List.mem_filter, Bool.not_eq_true', beq_eq_false_iff_ne,
      ne_eq] at hit ⊢ <;> tauto

/-! ## Metadata-matched cart lookup (C2):
`PostgreSQLStorage.getCartItemWithProduct` (postgresql.ts lines 368–431) -/

/-- What the metadata-matching code observes of a `JSON.parse`d metadata
value: its `selectedWeight` field (`none` models `undefined`). -/
structure MetaVal where
  selectedWeight : Option String
deriving Repr, DecidableEq

/-- The matching test the loop body of `getCartItemWithProduct` applies to
one row, given a truthy `metaDataValue`: exact string equality of the raw
values first, then — when both raw values are truthy and both parse —
equality of the parsed `selectedWeight` fields (JavaScript `===`, under
which `undefined === undefined` holds). -/
def metaMatches (parse : String → Option MetaVal) (itemMeta : Option String)
    (metaDataValue : String) : Bool :=
  (itemMeta == some metaDataValue) ||
    (match itemMeta with
     | some im =>
       if truthyStr im && truthyStr metaDataValue then
         match parse im, parse metaDataValue with
         | some a, some b => a.selectedWeight == b.selectedWeight
         | _, _ => false
       else false
     | none => false)

/-- The `results` of `getCartItemWithProduct`: the rows whose session id
and product id match. -/
def cartCandidates (rows : List CartItemRec) (sid : String) (pid : ℕ) :
    List CartItemRec :=
  rows.filter (fun it => it.sessionId == some sid && it.productId == pid)

/-- `PostgreSQLStorage.getCartItemWithProduct`: select the rows of the
session and product; when a truthy (nonempty) `metaDataValue` is given and
rows exist, return the first row passing `metaMatches` (or `none`);
otherwise return the first row, if any. -/
def getCartItemWithProduct (parse : String → Option MetaVal)
    (rows : List CartItemRec) (sid : String) (pid : ℕ)
    (metaDataValue : Option String) : Option CartItemRec :=
  let results := cartCandidates rows sid pid
  match metaDataValue with
  | some mv =>
    if 0 < results.length && truthyStr mv then
      results.find? (fun it => metaMatches parse it.metaData mv)
    else results.head?
  | none => results.head?

/-- The match rule claim C2 states: exact string equality of the stored
metadata with the given metadata (absence on both sides counting as a
match, via equality of the options), falling back to structural equality
of the parsed `selectedWeight` fields of both metadata values. -/
def claimMetaMatch (parse : String → Option MetaVal)
    (itemMeta queryMeta : Option String) : Prop :=
  itemMeta = queryMeta
    ∨ (∃ im qm a b, itemMeta = some im ∧ queryMeta = some qm
        ∧ parse im = some a ∧ parse qm = some b
        ∧ a.selectedWeight = b.selectedWeight)

/-- Counterexample to claim C2 as stated: with no query metadata, the code
returns the first row of the session and product even though that row has
stored metadata, i.e. even though none of the claim's match rules (exact
equality, parsed-`selectedWeight` equality, both-sides-absent) relates the
row's metadata to the query. -/
theorem claim_C2_counterexample :
    getCartItemWithProduct (fun _ => none)
        [⟨1, none, some "s", 1, 1, some "x"⟩] "s" 1 none
      = some ⟨1, none, some "s", 1, 1, some "x"⟩
    ∧ ¬ claimMetaMatch (fun _ => none) (some "x") none := by
  constructor
  · decide
  · simp [claimMetaMatch]

theorem metaMatches_iff (parse : String → Option MetaVal) (im : Option String)
    (mv : String) (hmv : mv ≠ "") (hp : parse "" = none) :
    metaMatches parse im mv = true ↔ claimMetaMatch parse im (some mv) := by
  cases im with
  | none => simp [metaMatches, claimMetaMatch]
  | some s =>
    by_cases hs : s = ""
    · subst hs
      have : ¬("" = mv) := fun h => hmv h.symm
      simp [metaMatches, claimMetaMatch, truthyStr, hp, this]
    · have ht : truthyStr s = true := by simp [truthyStr, hs]
      have htm : truthyStr mv = true := by simp [truthyStr, hmv]
      cases ha : parse s with
      | none => simp [metaMatches, claimMetaMatch, ht, htm, ha]
      | some a =>
        cases hb : parse mv with
        | none => simp [metaMatches, claimMetaMatch, ht, htm, ha, hb]
        | some b => simp [metaMatches, claimMetaMatch, ht, htm, ha, hb]

theorem mem_cartCandidates {rows : List CartItemRec} {sid : String} {pid : ℕ}
    {it : CartItemRec} (h : it ∈ cartCandidates rows sid pid) :
    it ∈ rows ∧ it.sessionId = some sid ∧ it.productId = pid := by
  rw [cartCandidates, List.mem_filter] at h
  refine ⟨h.1, ?_, ?_⟩
  · have := h.2
    simp only [Bool.and_eq_true, beq_iff_eq] at this
    exact this.1
  · have := h.2
    simp only [Bool.and_eq_true, beq_iff_eq] at this
    exact this.2

theorem head?_mem {α : Type} {l : List α} {a : α} (h : l.head? = some a) : a ∈ l := by
  cases l with
  | nil => simp at h
  | cons x xs =>
    simp only [List.head?_cons, Option.some.injEq] at h
    simp [h]

/-- Claim C2 amended: `getCartItemWithProduct` returns at most one cart row
of the given session and product.  When the given metadata string is
non-empty, it returns the first candidate row matching by exact string
equality of the stored metadata, falling back (per row) to structural
equality of the parsed `selectedWeight` fields, and `none` when no row
matches.  When the metadata argument is absent — or equal to the empty
string, which the code treats as absent — it returns the first candidate
row regardless of that row's stored metadata (so in particular absence of
metadata on both sides counts as a match), and `none` when no candidate
exists.  (`parse` models `JSON.parse`, which throws on the empty string.) -/
theorem claim_C2_amended (parse : String → Option MetaVal)
    (rows : List CartItemRec) (sid : String) (pid : ℕ) (m : Option String)
    (mv : String) (hmv : mv ≠ "") (hp : parse "" = none) :
    (∀ it, getCartItemWithProduct parse rows sid pid m = some it →
        it ∈ rows ∧ it.sessionId = some sid ∧ it.productId = pid)
    ∧ getCartItemWithProduct parse rows sid pid none
        = (cartCandidates rows sid pid).head?
    ∧ getCartItemWithProduct parse rows sid pid (some "")
        = (cartCandidates rows sid pid).head?
    ∧ getCartItemWithProduct parse rows sid pid (some mv)
        = (cartCandidates rows sid pid).find?
            (fun it => metaMatches parse it.metaData mv)
    ∧ (∀ it, getCartItemWithProduct parse rows sid pid (some mv) = some it →
        claimMetaMatch parse it.metaData (some mv))
    ∧ (getCartItemWithProduct parse rows sid pid (some mv) = none
        ↔ ∀ it ∈ cartCandidates rows sid pid,
            ¬ claimMetaMatch parse it.metaData (some mv)) := by
  have hfind : getCartItemWithProduct parse rows sid pid (some mv)
      = (cartCandidates rows sid pid).find?
          (fun it => metaMatches parse it.metaData mv) := by
    rw [getCartItemWithProduct]
    have htm : truthyStr mv = true := by simp [truthyStr, hmv]
    cases hc : cartCandidates rows sid pid with
    | nil => simp [htm]
    | cons x xs => simp [htm]
  refine ⟨?_, rfl, ?_, hfind, ?_, ?_⟩
  · intro it hit
    apply mem_cartCandidates
    rcases m with _ | mv2
    · exact head?_mem hit
    · rw [getCartItemWithProduct] at hit
      by_cases h2 : (0 < (cartCandidates rows sid pid).length && truthyStr mv2) = true
      · rw [if_pos h2] at hit
        exact List.mem_of_find?_eq_some hit
      · rw [if_neg h2] at hit
        exact head?_mem hit
  · rw [getCartItemWithProduct]
    have : truthyStr "" = false := by decide
    simp [this]
  · intro it hit
    rw [hfind] at hit
    have := List.find?_some hit
    exact (metaMatches_iff parse it.metaData mv hmv hp).mp this
  · rw [hfind, List.find?_eq_none]
    constructor
    · intro h it hmem
      intro hcm
      exact h it hmem ((metaMatches_iff parse it.metaData mv hmv hp).mpr hcm)
    · intro h it hmem
      intro hb
      exact h it hmem ((metaMatches_iff parse it.metaData mv hmv hp).mp hb)

/-- Witness for the amended claim C2 at a concrete store: a non-empty
metadata query returns the exact-match row. -/
theorem claim_C2_amended_witness :
    getCartItemWithProduct (fun _ => none)
        [⟨1, none, some "s", 1, 1, some "x"⟩] "s" 1 (some "x")
      = some ⟨1, none, some "s", 1, 1, some "x"⟩ := by
  have h := (claim_C2_amended (fun _ => none)
      [⟨1, none, some "s", 1, 1, some "x"⟩] "s" 1 none "x" (by decide) rfl).2.2.2.1
  rw [h]
  decide

/-- Witness for claim C8 at a concrete store: clearing session `s1` keeps
the row of session `s2`. -/
theorem claim_C8_clearCart_witness :
    (⟨2, none, some "s2", 1, 1, none⟩ : CartItemRec)
      ∈ clearCart
          [⟨1, none, some "s1", 1, 1, none⟩, ⟨2, none, some "s2", 1, 1, none⟩] "s1" :=
  (claim_C8_clearCart
      [⟨1, none, some "s1", 1, 1, none⟩, ⟨2, none, some "s2", 1, 1, none⟩] "s1").2.2
    _ (by decide) (by decide)

/-! ## POST /api/cart (C1): routes.ts lines 200–236 over `MemStorage` -/

/-- The `POST /api/cart` request body as the client sends it
(`CartContext.addToCart`): product id, quantity and a serialized `metaData`
JSON string carrying the selected weight. -/
structure PostCartBody where
  productId : ℕ
  quantity : Option ℕ
  metaData : Option String
deriving Repr, DecidableEq

/-- The result of `insertCartItemSchema.parse({...req.body, sessionId})`:
`shared/schema.ts` derives the insert schema from the `cart_items` table,
which has `user_id`, `session_id`, `product_id` and `quantity` columns and
no metadata column, so zod keeps only those keys — the `metaData` field
sent by the client is stripped. -/
structure InsertCartItem where
  sessionId : Option String
  productId : ℕ
  quantity : Option ℕ
deriving Repr, DecidableEq

/-- `insertCartItemSchema.parse` on the spread body plus the session id. -/
def insertCartItemSchemaParse (body : PostCartBody) (sessionId : String) :
    InsertCartItem :=
  { sessionId := some sessionId, productId := body.productId,
    quantity := body.quantity }

/-- JavaScript `q || 1` on the optional quantity (`0` is falsy). -/
def jsQuantityOr1 : Option ℕ → ℕ
  | some q => if q = 0 then 1 else q
  | none => 1

/-- The `MemStorage` cart table and its id counter. -/
structure MemCartState where
  items : List CartItemRec
  nextId : ℕ
deriving Repr, DecidableEq

/-- `MemStorage.getCartItemWithProduct` (storage.ts lines 256–260): the
first cart item with the given session id and product id — the stored
metadata is not consulted (the method does not even take a metadata
argument). -/
def memGetCartItemWithProduct (st : MemCartState) (sid : String) (pid : ℕ) :
    Option CartItemRec :=
  st.items.find? (fun it => it.sessionId == some sid && it.productId == pid)

/-- `MemStorage.addToCart` (storage.ts lines 262–275): fresh id, session id
kept when truthy, quantity defaulted with `|| 1`; the stored row has no
metadata field (the shared schema defines none). -/
def memAddToCart (st : MemCartState) (ins : InsertCartItem) :
    CartItemRec × MemCartState :=
  let item : CartItemRec :=
    { id := st.nextId, userId := none,
      sessionId := if truthyOptStr ins.sessionId then ins.sessionId else none,
      productId := ins.productId, quantity := jsQuantityOr1 ins.quantity,
      metaData := none }
  (item, ⟨st.items ++ [item], st.nextId + 1⟩)

/-- `MemStorage.updateCartItem` (storage.ts lines 277–284): replace the
quantity of the item with the given id. -/
def memUpdateCartItem (st : MemCartState) (id quantity : ℕ) : MemCartState :=
  ⟨st.items.map (fun it => if it.id = id then { it with quantity := quantity } else it),
    st.nextId⟩

/-- The `POST /api/cart` handler (routes.ts lines 200–236): validate the
body, look up an existing line for the session and product — passing no
metadata — and either increment that line's quantity or insert a new
line. -/
def postCartHandler (st : MemCartState) (sessionId : String) (body : PostCartBody) :
    MemCartState :=
  let validatedData := insertCartItemSchemaParse body sessionId
  match memGetCartItemWithProduct st sessionId validatedData.productId with
  | some existingItem =>
    memUpdateCartItem st existingItem.id
      (existingItem.quantity + jsQuantityOr1 validatedData.quantity)
  | none => (memAddToCart st validatedData).2

/-- Claim C1 fails on the code: posting the same product twice with two
different weight labels does not create two distinct cart lines — the
handler never passes the metadata to `getCartItemWithProduct`, so the
second add finds the first line and increments it.  Starting from an empty
store, after adding product 7 with selected weight `250g` and then with
selected weight `500g`, the session's cart holds a single line of
quantity 2 (and no stored metadata). -/
theorem claim_C1_code_bug :
    (postCartHandler
        (postCartHandler ⟨[], 1⟩ "sess"
          ⟨7, some 1, some "\x7b\"selectedWeight\":\"250g\"\x7d"⟩)
        "sess" ⟨7, some 1, some "\x7b\"selectedWeight\":\"500g\"\x7d"⟩).items
      = [⟨1, none, some "sess", 7, 2, none⟩] := by decide

/-! ## Admin middleware (C6): `isAdmin` in routes.ts lines 21–83 -/

/-- An entry of the process-local `adminSessions` map. -/
structure AdminSession where
  userId : ℕ
  username : String
  isAdmin : Bool
  isAuthenticated : Bool
deriving Repr, DecidableEq

/-- JavaScript `String.prototype.replace` with a plain-string pattern:
replace the first occurrence only. -/
def replaceFirstList (pat repl : List Char) : List Char → List Char
  | [] => []
  | c :: rest =>
    if pat.isPrefixOf (c :: rest) then repl ++ List.drop pat.length (c :: rest)
    else c :: replaceFirstList pat repl rest

/-- JavaScript `s.replace(pat, repl)` for string patterns. -/
def jsReplace (s pat repl : String) : String :=
  ⟨replaceFirstList pat.data repl.data s.data⟩

/-- The headers and cookie the middleware consults. -/
structure AdminRequest where
  xAdminKey : Option String
  adminSessionId : Option String
  xAdminSessionId : Option String
  authorization : Option String
  cookieAdminSessionId : Option String
deriving Repr, DecidableEq

/-- The session-id fallback chain of the middleware (routes.ts lines
41–46): `admin-session-id` header, `x-admin-session-id` header, the
`authorization` header with its first `"Bearer "` removed, then the
`adminSessionId` cookie — combined with JavaScript `||`. -/
def requestSessionId (req : AdminRequest) : Option String :=
  jsOrStr
    (jsOrStr (jsOrStr req.adminSessionId req.xAdminSessionId)
      (req.authorization.map (fun a => jsReplace a "Bearer " "")))
    req.cookieAdminSessionId

/-- `process.env.ADMIN_KEY || process.env.ADMIN_SECRET || "admin-secret"`. -/
def adminSecretOf (envAdminKey envAdminSecret : Option String) : String :=
  (jsOrStr (jsOrStr envAdminKey envAdminSecret) (some "admin-secret")).getD
    "admin-secret"

/-- Decision of the middleware: invoke the handler as the given admin user,
or answer with an error status. -/
inductive AuthDecision where
  | allowed (userId : ℕ) (username : String)
  | rejected (status : ℕ)
deriving Repr, DecidableEq

/-- The `isAdmin` middleware (routes.ts lines 21–83): accept on a matching
`x-admin-key` header; otherwise resolve a session id from the fallback
chain and accept only when the process-local table maps it to an entry
with `isAuthenticated` and `isAdmin` both true; reject with 403 in every
other case. -/
def isAdminMiddleware (envAdminKey envAdminSecret : Option String)
    (sessions : List (String × AdminSession)) (req : AdminRequest) : AuthDecision :=
  let adminSecret := adminSecretOf envAdminKey envAdminSecret
  if req.xAdminKey == some adminSecret then
    .allowed 1 "admin"
  else
    match requestSessionId req with
    | none => .rejected 403
    | some sid =>
      if sid = "" then .rejected 403
      else
        match jsLookup sessions sid with
        | none => .rejected 403
        | some session =>
          if !session.isAuthenticated || !session.isAdmin then .rejected 403
          else .allowed session.userId session.username

/-- Running a guarded route: the handler runs only on an allowed decision. -/
def runGuarded {α : Type} (d : AuthDecision) (handler : ℕ → String → α) : α ⊕ ℕ :=
  match d with
  | .allowed uid un => Sum.inl (handler uid un)
  | .rejected s => Sum.inr s

/-- Claim C6's first gate: the request presents the `x-admin-key` header
equal to the configured shared secret. -/
def keyGateOk (envAdminKey envAdminSecret : Option String) (req : AdminRequest) : Prop :=
  req.xAdminKey = some (adminSecretOf envAdminKey envAdminSecret)

/-- Claim C6's second gate: the request presents a (nonempty) session token
that the process-local table maps to an entry with `isAuthenticated` and
`isAdmin` both true. -/
def sessionGateOk (sessions : List (String × AdminSession)) (req : AdminRequest) : Prop :=
  ∃ sid session, requestSessionId req = some sid ∧ sid ≠ ""
    ∧ jsLookup sessions sid = some session
    ∧ session.isAuthenticated = true ∧ session.isAdmin = true

/-- Claim C6: a request to an admin-protected route is accepted iff it
presents the `x-admin-key` header equal to the configured shared secret or
a session token mapping to an authenticated admin entry of the
process-local table; a request presenting neither is rejected with
status 403 and the protected handler is never invoked. -/
theorem claim_C6_isAdmin (envAdminKey envAdminSecret : Option String)
    (sessions : List (String × AdminSession)) (req : AdminRequest) :
    ((∃ uid un, isAdminMiddleware envAdminKey envAdminSecret sessions req
          = .allowed uid un)
      ↔ (keyGateOk envAdminKey envAdminSecret req ∨ sessionGateOk sessions req))
    ∧ (¬(keyGateOk envAdminKey envAdminSecret req ∨ sessionGateOk sessions req) →
        isAdminMiddleware envAdminKey envAdminSecret sessions req = .rejected 403
        ∧ ∀ (handler₁ handler₂ : ℕ → String → ℕ),
            runGuarded (isAdminMiddleware envAdminKey envAdminSecret sessions req)
                handler₁
              = runGuarded (isAdminMiddleware envAdminKey envAdminSecret sessions req)
                handler₂) := by
  by_cases hk : keyGateOk envAdminKey envAdminSecret req
  · have hkb : (req.xAdminKey == some (adminSecretOf envAdminKey envAdminSecret)) = true := by
      simp [keyGateOk] at hk
      simp [hk]
    constructor
    · simp [isAdminMiddleware, hkb, hk]
    · intro h
      exact absurd (Or.inl hk) h
  · have hkb : (req.xAdminKey == some (adminSecretOf envAdminKey envAdminSecret)) = false := by
      simp [keyGateOk] at hk
      simp [hk]
    have hrej : ¬ sessionGateOk sessions req →
        isAdminMiddleware envAdminKey envAdminSecret sessions req = .rejected 403 := by
      intro hs
      rw [isAdminMiddleware]
      simp only [hkb, Bool.false_eq_true, if_false]
      cases hsid : requestSessionId req with
      | none => rfl
      | some sid =>
        by_cases hse : sid = ""
        · simp [hse]
        · simp only [hse, if_false]
          cases hget : jsLookup sessions sid with
          | none => rfl
          | some session =>
            by_cases hfl : session.isAuthenticated = true ∧ session.isAdmin = true
            · exact absurd ⟨sid, session, hsid, hse, hget, hfl.1, hfl.2⟩ hs
            · have : (!session.isAuthenticated || !session.isAdmin) = true := by
                rcases Bool.eq_false_or_eq_true session.isAuthenticated with h1 | h1 <;>
                  rcases Bool.eq_false_or_eq_true session.isAdmin with h2 | h2 <;>
                  simp [h1, h2] at hfl ⊢
              simp [this]
    constructor
    · constructor
      · rintro ⟨uid, un, hall⟩
        by_cases hs : sessionGateOk sessions req
        · exact Or.inr hs
        · rw [hrej hs] at hall
          exact absurd hall (by simp)
      · rintro (h | h)
        · exact absurd h hk
        · obtain ⟨sid, session, hsid, hse, hget, hauth, hadm⟩ := h
          refine ⟨session.userId, session.username, ?_⟩
          rw [isAdminMiddleware]
          simp only [hkb, Bool.false_eq_true, if_false, hsid, hse, if_false, hget,
            hauth, hadm]
          simp
    · intro h
      have hs : ¬ sessionGateOk sessions req := fun hc => h (Or.inr hc)
      refine ⟨hrej hs, ?_⟩
      intro h₁ h₂
      rw [hrej hs]
      rfl

/-- Witness for claim C6 at concrete inputs: a request carrying only the
correct shared-secret header is accepted, and one carrying no credentials
is rejected with 403 without the handler running. -/
theorem claim_C6_isAdmin_witness :
    (∃ uid un, isAdminMiddleware none none []
        ⟨some "admin-secret", none, none, none, none⟩ = .allowed uid un)
    ∧ isAdminMiddleware none none [] ⟨none, none, none, none, none⟩
        = .rejected 403 := by
  constructor
  · exact (claim_C6_isAdmin none none []
      ⟨some "admin-secret", none, none, none, none⟩).1.mpr
      (Or.inl (by simp [keyGateOk, adminSecretOf, jsOrStr, truthyOptStr]))
  · exact ((claim_C6_isAdmin none none [] ⟨none, none, none, none, none⟩).2
      (by
        rintro (h | h)
        · simp [keyGateOk] at h
        · obtain ⟨sid, session, hsid, _⟩ := h
          simp [requestSessionId, jsOrStr, truthyOptStr] at hsid)).1

/-! ## Admin login (C10): `POST /api/admin/login`, routes.ts lines 308–370 -/

/-- The user fields the login handler reads. -/
structure UserRec where
  id : ℕ
  username : String
  password : String
  isAdmin : Bool
deriving Repr, DecidableEq

/-- `MemStorage.getUserByUsername`: first user with the given username. -/
def getUserByUsername (usersList : List UserRec) (username : String) :
    Option UserRec :=
  usersList.find? (fun user => user.username == username)

/-- `MemStorage.isAdmin` (storage.ts lines 117–121): the user's `isAdmin`
flag, `false` when the user does not exist. -/
def storageIsAdmin (usersList : List UserRec) (userId : ℕ) : Bool :=
  match usersList.find? (fun user => user.id == userId) with
  | some user => user.isAdmin
  | none => false

/-- `Map.prototype.set` on the admin-session table: bind the key, replacing
any previous binding. -/
def mapSet (sessions : List (String × AdminSession)) (k : String)
    (v : AdminSession) : List (String × AdminSession) :=
  (k, v) :: sessions.filter (fun e => !(e.1 == k))

/-- Response of the login handler. -/
inductive LoginResponse where
  | badRequest
  | unauthorized
  | ok (sessionId : String) (userId : ℕ) (username : String)
deriving Repr, DecidableEq

/-- The `POST /api/admin/login` handler: 400 on a falsy username or
password; look the user up by username and reject with 401 unless it
exists with id 1; reject with 401 unless the stored plaintext password
equals the supplied one; otherwise create a session under the freshly
generated id (`nanoid()`, passed here as `freshId`) with
`isAuthenticated: true` and the storage's `isAdmin` flag. -/
def adminLoginHandler (usersList : List UserRec)
    (sessions : List (String × AdminSession))
    (username password : Option String) (freshId : String) :
    LoginResponse × List (String × AdminSession) :=
  if !truthyOptStr username || !truthyOptStr password then
    (.badRequest, sessions)
  else
    match getUserByUsername usersList (username.getD "") with
    | none => (.unauthorized, sessions)
    | some user =>
      if user.id ≠ 1 then (.unauthorized, sessions)
      else if user.password ≠ password.getD "" then (.unauthorized, sessions)
      else
        let isUserAdmin := storageIsAdmin usersList user.id
        (.ok freshId user.id user.username,
          mapSet sessions freshId
            ⟨user.id, user.username, isUserAdmin, true⟩)

/-- Claim C10: `POST /api/admin/login` succeeds only when the username
resolves to the user with id 1 and the password is string-equal to that
user's stored plaintext password; any other existing user is rejected with
401 even with correct credentials; and a successful login installs a new
entry in the session table under the freshly generated session id with
`isAuthenticated` true. -/
theorem claim_C10_admin_login (usersList : List UserRec)
    (sessions : List (String × AdminSession)) (u p freshId : String)
    (hu : u ≠ "") (hp : p ≠ "") :
    (∀ sid uid un newSessions,
        adminLoginHandler usersList sessions (some u) (some p) freshId
          = (.ok sid uid un, newSessions) →
        ∃ user, getUserByUsername usersList u = some user
          ∧ user.id = 1 ∧ user.password = p ∧ sid = freshId)
    ∧ (∀ user, getUserByUsername usersList u = some user → user.id ≠ 1 →
        adminLoginHandler usersList sessions (some u) (some p) freshId
          = (.unauthorized, sessions))
    ∧ (∀ user, getUserByUsername usersList u = some user → user.id = 1 →
        user.password = p →
        adminLoginHandler usersList sessions (some u) (some p) freshId
          = (.ok freshId 1 user.username,
              mapSet sessions freshId
                ⟨1, user.username, storageIsAdmin usersList 1, true⟩)
          ∧ jsLookup
              (mapSet sessions freshId
                ⟨1, user.username, storageIsAdmin usersList 1, true⟩) freshId
            = some ⟨1, user.username, storageIsAdmin usersList 1, true⟩) := by
  have htu : truthyOptStr (some u) = true := by simp [truthyOptStr, truthyStr, hu]
  have htp : truthyOptStr (some p) = true := by simp [truthyOptStr, truthyStr, hp]
  refine ⟨?_, ?_, ?_⟩
  · intro sid uid un newSessions hok
    rw [adminLoginHandler] at hok
    simp only [htu, htp, Bool.not_true, Bool.or_self, Bool.false_eq_true, if_false,
      Option.getD_some] at hok
    cases hfind : getUserByUsername usersList u with
    | none =>
      simp only [hfind] at hok
      exact absurd hok (by simp)
    | some user =>
      simp only [hfind] at hok
      by_cases hid : user.id ≠ 1
      · rw [if_pos hid] at hok
        exact absurd hok (by simp)
      · rw [if_neg hid] at hok
        by_cases hpw : user.password ≠ p
        · rw [if_pos hpw] at hok
          exact absurd hok (by simp)
        · rw [if_neg hpw] at hok
          refine ⟨user, rfl, not_not.mp hid, not_not.mp hpw, ?_⟩
          simp only [Prod.mk.injEq, LoginResponse.ok.injEq] at hok
          exact hok.1.1.symm
  · intro user hfind hid
    rw [adminLoginHandler]
    simp only [htu, htp, Bool.not_true, Bool.or_self, Bool.false_eq_true, if_false,
      Option.getD_some, hfind]
    rw [if_pos hid]
  · intro user hfind hid hpw
    have hres : adminLoginHandler usersList sessions (some u) (some p) freshId
        = (.ok freshId 1 user.username,
            mapSet sessions freshId
              ⟨1, user.username, storageIsAdmin usersList 1, true⟩) := by
      rw [adminLoginHandler]
      simp only [htu, htp, Bool.not_true, Bool.or_self, Bool.false_eq_true, if_false,
        Option.getD_some, hfind]
      rw [if_neg (by simp [hid]), if_neg (by simp [hpw])]
      simp [hid]
    refine ⟨hres, ?_⟩
    simp [jsLookup, mapSet]

/-- Witness for claim C10: the predefined admin credentials log in and
install an authenticated session under the fresh id. -/
theorem claim_C10_admin_login_witness :
    adminLoginHandler [⟨1, "admin_millikit", "the_millikit", true⟩] []
        (some "admin_millikit") (some "the_millikit") "fresh-id"
      = (.ok "fresh-id" 1 "admin_millikit",
          [("fresh-id", ⟨1, "admin_millikit", true, true⟩)]) := by
  have h := ((claim_C10_admin_login [⟨1, "admin_millikit", "the_millikit", true⟩] []
      "admin_millikit" "the_millikit" "fresh-id" (by decide) (by decide)).2.2
      ⟨1, "admin_millikit", "the_millikit", true⟩ (by decide) rfl rfl).1
  rw [h]
  decide

/-! ## Bounded retry (C9): `PostgreSQLStorage.executeWithRetry`,
postgresql.ts lines 128–191 -/

/-- `this.maxRetries` of `PostgreSQLStorage`. -/
def maxRetries : ℕ := 5

/-- `this.retryDelay` of `PostgreSQLStorage` (milliseconds). -/
def retryDelay : ℕ := 2000

/-- The fixed connection-error message substrings of `executeWithRetry`. -/
def connectionErrorSubstrings : List String :=
  ["terminating connection", "Connection terminated", "Connection closed",
   "connection lost", "could not connect", "timeout",
   "socket hang up", "ECONNREFUSED", "ETIMEDOUT", "ENOTFOUND"]

/-- A thrown JavaScript `Error`, reduced to its message. -/
structure JsError where
  message : String
deriving Repr, DecidableEq

/-- `error.message.includes(...)` over the fixed substring list. -/
def isConnectionError (e : JsError) : Bool :=
  connectionErrorSubstrings.any (fun sub => strIncludes e.message sub)

/-- Observable behaviour of one `executeWithRetry` call: the value returned
or error thrown, the `setTimeout` delays awaited (in order), and the number
of times the wrapped operation ran. -/
structure RetryTrace (α : Type) where
  result : Except JsError α
  delays : List ℕ
  attempts : ℕ
deriving Repr

/-- `PostgreSQLStorage.executeWithRetry`: run the operation; rethrow
immediately unless the error message matches a connection-error substring
and retries remain; otherwise wait `retryDelay * (maxRetries - retries + 1)`,
reinitialize the connection and recurse with one retry fewer — and when
the reinitialization itself fails, recurse only if more than one retry
remains, after waiting twice that delay again, else rethrow the operation's
error.  `op k` is the outcome of the k-th run of the operation and
`reconnectOk k` whether the reconnection after it succeeds. -/
def executeWithRetry {α : Type} (op : ℕ → Except JsError α)
    (reconnectOk : ℕ → Bool) (k retries : ℕ) : RetryTrace α :=
  match op k with
  | .ok a => ⟨.ok a, [], 1⟩
  | .error e =>
    if h : isConnectionError e = true ∧ 0 < retries then
      let currentDelay := retryDelay * (maxRetries - retries + 1)
      if reconnectOk k then
        let r := executeWithRetry op reconnectOk (k + 1) (retries - 1)
        ⟨r.result, currentDelay :: r.delays, r.attempts + 1⟩
      else if 1 < retries then
        let r := executeWithRetry op reconnectOk (k + 1) (retries - 1)
        ⟨r.result, currentDelay :: currentDelay * 2 :: r.delays, r.attempts + 1⟩
      else
        ⟨.error e, [currentDelay], 1⟩
    else
      ⟨.error e, [], 1⟩
termination_by retries
decreasing_by
  all_goals (obtain ⟨-, h2⟩ := h; omega)

theorem executeWithRetry_ok {α : Type} (op : ℕ → Except JsError α)
    (reconnectOk : ℕ → Bool) (k retries : ℕ) (a : α) (hop : op k = .ok a) :
    executeWithRetry op reconnectOk k retries = ⟨.ok a, [], 1⟩ := by
  rw [executeWithRetry, hop]

theorem executeWithRetry_error {α : Type} (op : ℕ → Except JsError α)
    (reconnectOk : ℕ → Bool) (k retries : ℕ) (e : JsError)
    (hop : op k = .error e) :
    executeWithRetry op reconnectOk k retries =
      if isConnectionError e = true ∧ 0 < retries then
        let currentDelay := retryDelay * (maxRetries - retries + 1)
        if reconnectOk k then
          let r := executeWithRetry op reconnectOk (k + 1) (retries - 1)
          ⟨r.result, currentDelay :: r.delays, r.attempts + 1⟩
        else if 1 < retries then
          let r := executeWithRetry op reconnectOk (k + 1) (retries - 1)
          ⟨r.result, currentDelay :: currentDelay * 2 :: r.delays, r.attempts + 1⟩
        else
          ⟨.error e, [currentDelay], 1⟩
      else
        ⟨.error e, [], 1⟩ := by
  rw [executeWithRetry, hop]
  rfl

/-- Claim C9: an error whose message matches none of the fixed
connection-error substrings is rethrown immediately with no retry; a
matching error triggers up to the fixed maximum of 5 retries, with a
linearly increasing delay between attempts; and when the retry budget is
exhausted the operation's own error is rethrown to the caller (shown by
the run in which every attempt fails with the same connection error:
6 operation runs, delays 2000, 4000, …, 10000 ms, and the original error
as the result). -/
theorem claim_C9_executeWithRetry (α : Type) :
    (∀ (op : ℕ → Except JsError α) (reconnectOk : ℕ → Bool) (k retries : ℕ)
        (e : JsError), op k = .error e → isConnectionError e = false →
        executeWithRetry op reconnectOk k retries = ⟨.error e, [], 1⟩)
    ∧ (∀ (op : ℕ → Except JsError α) (reconnectOk : ℕ → Bool) (k retries : ℕ),
        (executeWithRetry op reconnectOk k retries).attempts ≤ retries + 1)
    ∧ maxRetries = 5
    ∧ (∀ e : JsError, isConnectionError e = true →
        executeWithRetry (fun _ => (Except.error e : Except JsError α))
            (fun _ => true) 0 maxRetries
          = ⟨Except.error e, [2000, 4000, 6000, 8000, 10000], 6⟩) := by
  refine ⟨?_, ?_, rfl, ?_⟩
  · intro op reconnectOk k retries e hop hconn
    rw [executeWithRetry]
    simp [hop, hconn]
  · intro op reconnectOk k retries
    induction retries generalizing k with
    | zero =>
      cases hop : op k with
      | ok a => rw [executeWithRetry_ok op reconnectOk k 0 a hop]
      | error e =>
        rw [executeWithRetry_error op reconnectOk k 0 e hop]
        simp
    | succ n ih =>
      cases hop : op k with
      | ok a =>
        rw [executeWithRetry_ok op reconnectOk k (n + 1) a hop]
        simp
      | error e =>
        rw [executeWithRetry_error op reconnectOk k (n + 1) e hop]
        by_cases hcond : isConnectionError e = true ∧ 0 < n + 1
        · rw [if_pos hcond]
          by_cases hrc : reconnectOk k = true
          · simp only [hrc, if_true]
            have h2 := ih (k + 1)
            simp only [Nat.add_sub_cancel] at *
            omega
          · simp only [hrc, Bool.false_eq_true, if_false]
            by_cases h1 : 1 < n + 1
            · simp only [h1, if_true]
              have h2 := ih (k + 1)
              simp only [Nat.add_sub_cancel] at *
              omega
            · simp only [h1, if_false]
              omega
        · rw [if_neg hcond]
          simp
  · intro e hconn
    simp [executeWithRetry_error, hconn, maxRetries, retryDelay]

/-- Witness for claim C9 at a concrete error: `"ECONNREFUSED"` is a
connection error, and six failing attempts produce the linearly increasing
delays and the rethrown error. -/
theorem claim_C9_executeWithRetry_witness :
    executeWithRetry (fun _ => (Except.error ⟨"ECONNREFUSED"⟩ : Except JsError ℕ))
        (fun _ => true) 0 maxRetries
      = ⟨Except.error ⟨"ECONNREFUSED"⟩, [2000, 4000, 6000, 8000, 10000], 6⟩ :=
  (claim_C9_executeWithRetry ℕ).2.2.2 ⟨"ECONNREFUSED"⟩ (by decide)

end Millikit
